import Mathlib

/-
A verification development for the DevSync research-internship web application
(`app.py`).  The Python source is shallowly embedded: pure helper functions
become Lean functions on `String`/`List Char`; the SQLAlchemy-backed database
becomes an explicit `DB` record threaded through route handlers; calls to
external services (HTTP fetches, the generative-AI model, JSON parsing by the
standard library) become explicit `Except`/`Option`-valued parameters, so that
every control path of the Python code is represented.  Machine-level details
that the code never relies on (string encodings, datetime representation) are
modelled by `List Char` contents and seconds-since-epoch `Nat` timestamps.
-/

namespace RAO

/-! ## Python string primitives used by the helpers -/

/-- Python slice `s[:n]` on a `str`: the first `n` characters. -/
def pyTake (n : Nat) (s : String) : String :=
  String.mk (s.data.take n)

/-- Does `pat` occur at the head of the character list? -/
def startsWithL : List Char → List Char → Bool
  | _, [] => true
  | [], _ :: _ => false
  | a :: as, b :: bs => a = b && startsWithL as bs

/-- Python `s.replace(pat, rep)` on code points: replace every
non-overlapping occurrence, scanning left to right.  The fuel (initially
the length of the list) only decreases faster than the input is consumed,
so it never runs out. -/
def replaceFuel (pat rep : List Char) : Nat → List Char → List Char
  | _, [] => []
  | 0, l => l
  | fuel + 1, c :: cs =>
    if startsWithL (c :: cs) pat && !pat.isEmpty then
      rep ++ replaceFuel pat rep fuel ((c :: cs).drop pat.length)
    else
      c :: replaceFuel pat rep fuel cs

def pyReplace (s pat rep : String) : String :=
  String.mk (replaceFuel pat.data rep.data s.data.length s.data)

/-- Python `s.strip()`: drop whitespace from both ends. -/
def pyStrip (s : String) : String :=
  String.mk ((((s.data.dropWhile Char.isWhitespace).reverse).dropWhile
    Char.isWhitespace).reverse)

/-- The whitespace-separated tokens of a character list (fuel as above). -/
def splitWSFuel : Nat → List Char → List (List Char)
  | _, [] => []
  | 0, _ => []
  | fuel + 1, c :: cs =>
    if c.isWhitespace then splitWSFuel fuel cs
    else
      (c :: cs.takeWhile (fun d => !d.isWhitespace)) ::
        splitWSFuel fuel (cs.dropWhile (fun d => !d.isWhitespace))

/-- Python `s.split()` with no argument: split on runs of whitespace,
dropping empty pieces. -/
def pySplitWS (s : String) : List String :=
  (splitWSFuel s.data.length s.data).map String.mk

def intercalateSpace : List (List Char) → List Char
  | [] => []
  | [w] => w
  | w :: ws => w ++ ' ' :: intercalateSpace ws

/-- Python `" ".join(s.split())`: whitespace normalisation. -/
def pyJoinWords (s : String) : String :=
  String.mk (intercalateSpace (splitWSFuel s.data.length s.data))

/-- Python `s.find(c)` restricted to a single character, as an optional
index (Python returns `-1` for "not found"). -/
def pyFindIdx (c : Char) : List Char → Option Nat
  | [] => none
  | a :: as => if a = c then some 0 else (pyFindIdx c as).map (· + 1)

/-- Python `s.rfind(c)`: index of the last occurrence, if any. -/
def pyRFindIdx (c : Char) (cs : List Char) : Option Nat :=
  match pyFindIdx c cs.reverse with
  | none => none
  | some i => some (cs.length - 1 - i)

/-! ## `scrape_website_text` (app.py lines 124-138)

The `requests.get` call and the BeautifulSoup pipeline (tag removal followed
by `get_text()`) are external-library effects; they enter the model as the
`fetch` outcome (exception, or status code with body) and the `soupText`
function (exception, or the text extracted from the body).  Everything the
Python function itself does — the empty-url guard, the status check, the
whitespace normalisation and the `[:6000]` truncation — is modelled
concretely. -/

def scrape_website_text (url : String) (fetch : Except Unit (Nat × String))
    (soupText : String → Except Unit String) : String :=
  if url = "" then ""
  else
    match fetch with
    | .error _ => ""
    | .ok (code, body) =>
      if code ≠ 200 then ""
      else
        match soupText body with
        | .error _ => ""
        | .ok t => pyTake 6000 (pyJoinWords t)

/-! ## `extract_arxiv_id` (app.py lines 158-163)

`re.search(r"arxiv.org/(?:abs|pdf)/(\d+\.\d+)", url)`: scan for the earliest
position where the pattern matches; the unescaped `.` after `arxiv` matches
any character; the capture group takes a maximal run of digits, a literal
dot, and a maximal run of digits. -/

/-- Match the capture group `\d+\.\d+` at the head of `cs` (greedy; no
backtracking is possible for this pattern because the runs of digits are
maximal). -/
def arxivIdAt (cs : List Char) : Option (List Char) :=
  let d1 := cs.takeWhile Char.isDigit
  let r1 := cs.dropWhile Char.isDigit
  if d1.isEmpty then none
  else
    match r1 with
    | '.' :: r2 =>
      let d2 := r2.takeWhile Char.isDigit
      if d2.isEmpty then none else some (d1 ++ '.' :: d2)
    | _ => none

/-- Match the whole pattern at the head of the character list: literal
`arxiv`, any one character, literal `org/`, then `abs/` or `pdf/`, then the
id group. -/
def arxivUrlAt : List Char → Option (List Char)
  | 'a' :: 'r' :: 'x' :: 'i' :: 'v' :: _ :: 'o' :: 'r' :: 'g' :: '/' :: rest =>
    (match rest with
     | 'a' :: 'b' :: 's' :: '/' :: r2 => arxivIdAt r2
     | 'p' :: 'd' :: 'f' :: '/' :: r2 => arxivIdAt r2
     | _ => none)
  | _ => none

/-- `re.search`: try every start position from the left. -/
def scanArxiv : List Char → Option (List Char)
  | [] => none
  | c :: rest =>
    match arxivUrlAt (c :: rest) with
    | some s => some s
    | none => scanArxiv rest

def extract_arxiv_id (url : String) : Option String :=
  (scanArxiv url.data).map String.mk

/-! ## `get_paper_metadata` (app.py lines 166-233) -/

/-- The shape of the metadata dictionaries the function returns.  A paper
object decoded from the Semantic Scholar response carries these fields
(`title,abstract,authors,venue` are the requested fields). -/
structure Metadata where
  title : String
  abstract : String
  authors : List String
  venue : Option String
deriving DecidableEq

/-- An `<entry>` of the ArXiv Atom feed, with the `.text.strip()` of its
title/summary/author-name elements. -/
structure ArxivEntry where
  title : String
  summary : String
  authors : List String
deriving DecidableEq

/-- Outcome of the Semantic Scholar block: `res.status_code == 200` and the
decoded `data["data"]` list is non-empty yields its first element; a non-200
status, an empty list, or an exception anywhere in the `try` falls through. -/
def ssHit : Except Unit (Nat × List Metadata) → Option Metadata
  | .ok (code, m :: _) => if code = 200 then some m else none
  | _ => none

/-- `get_paper_metadata(query)`.  `ss` is the outcome of the Semantic Scholar
request (exception, or status code with decoded paper list); `ax` is the
outcome of the ArXiv request (exception, or the optional first `<entry>`). -/
def get_paper_metadata (query : String) (ss : Except Unit (Nat × List Metadata))
    (ax : Except Unit (Option ArxivEntry)) : Metadata :=
  let q := (extract_arxiv_id query).getD query
  match ssHit ss with
  | some m => m
  | none =>
    match ax with
    | .ok (some e) =>
      if e.summary.length < 50 then
        ⟨q, "Abstract content unavailable.", [], none⟩
      else
        ⟨e.title, e.summary, e.authors, some "ArXiv"⟩
    | _ => ⟨q, "No abstract found. Please provide text content directly.", [], none⟩

/-! ## `clean_json_text` (app.py lines 88-98) -/

def clean_json_text (text : String) : String :=
  let t := pyStrip (pyReplace (pyReplace text "```json" "") "```" "")
  let cs := t.data
  match pyFindIdx '\x7b' cs with
  | none => t
  | some s =>
    let e := match pyRFindIdx '\x7d' cs with
             | none => 0
             | some i => i + 1
    String.mk ((cs.drop s).take (e - s))

/-! ## The `/optimize` route's response construction (app.py lines 474-516)

The generative-AI call is the `aiCall` parameter (exception or response
text); `json.loads` producing a JSON object with the expected optional
fields is the `parse` parameter (`none` models a parse exception or a
non-object result).  The metadata/scrape chain only feeds the prompt string
and cannot influence which JSON payload is produced, so it does not appear
here; `professor_name` is the name in scope at response-construction time
(the request field or the auto-detected last author). -/

structure AIResult where
  summary : Option String
  skills : Option (List String)
  citation_score : Option String
  vacancies : Option String
  applicants : Option String
  application : Option String

structure AnalysisPayload where
  summary : String
  skills : List String
  citation_score : String
  vacancies : String
  applicants : String
deriving DecidableEq

structure OptimizeResponse where
  analysis : AnalysisPayload
  application : String
deriving DecidableEq

/-- Equality of external-call outcomes is decidable. -/
def exceptDecEq [DecidableEq ε] [DecidableEq α] : DecidableEq (Except ε α)
  | .ok a, .ok b =>
    if h : a = b then .isTrue (by rw [h]) else .isFalse (by simp [h])
  | .error a, .error b =>
    if h : a = b then .isTrue (by rw [h]) else .isFalse (by simp [h])
  | .ok _, .error _ => .isFalse (by simp)
  | .error _, .ok _ => .isFalse (by simp)

instance [DecidableEq ε] [DecidableEq α] : DecidableEq (Except ε α) := exceptDecEq

/-- Python `professor_name.split()[-1] if professor_name else ''`: `none`
models the `IndexError` raised when the name is non-empty but whitespace-only. -/
def lastTokenOpt (s : String) : Option String :=
  if s = "" then some "" else (pySplitWS s).getLast?

def fallbackEmail (w : String) : String :=
  "Dear Prof. " ++ w ++ ",\n\nI am writing to express my interest in your research..."

def optimize_route (professor_name : String) (aiCall : Except Unit String)
    (parse : String → Option AIResult) : Except Unit OptimizeResponse :=
  let success := fun (r : AIResult) =>
    OptimizeResponse.mk
      ⟨r.summary.getD "Analysis unavailable.",
       r.skills.getD ["General Research"],
       r.citation_score.getD "N/A",
       r.vacancies.getD "Open",
       r.applicants.getD "Many"⟩
      (r.application.getD "Error generating email.")
  let fallback : Except Unit OptimizeResponse :=
    match lastTokenOpt professor_name with
    | some w =>
      .ok ⟨⟨"Could not analyze content deeper.", ["Manual Review"], "N/A",
            "Check Listing", "Unknown"⟩, fallbackEmail w⟩
    | none => .error ()
  match aiCall with
  | .error _ => fallback
  | .ok text =>
    match parse text with
    | some r => .ok (success r)
    | none =>
      match parse (clean_json_text text) with
      | some r => .ok (success r)
      | none => fallback

/-! ## Database models (app.py lines 236-274)

Columns declared `nullable=False` are modelled as plain values; nullable
columns as `Option`.  Autoincrement primary keys are modelled by per-table
counters in `DB`.  Timestamps (`db.DateTime`) are seconds since the epoch. -/

structure User where
  id : Nat
  email : String
  password : String
  role : String
  full_name : Option String
  qualification : Option String
  college : Option String
  phone : Option String
  resume_file : Option String
  reset_token : Option String
  token_expiry : Option Nat
deriving DecidableEq

structure Internship where
  id : Nat
  title : String
  domain : Option String
  description : Option String
  type : Option String
  pdf_link : Option String
  vacancies : String
  user_id : Nat
deriving DecidableEq

structure Application where
  id : Nat
  student_id : Nat
  internship_id : Option Nat
  cover_letter : Option String
  status : String
deriving DecidableEq

structure DB where
  users : List User
  internships : List Internship
  applications : List Application
  nextUserId : Nat
  nextInternshipId : Nat
  nextAppId : Nat
deriving DecidableEq

def initDB : DB := ⟨[], [], [], 1, 1, 1⟩

/-- Mutating the single row returned by a `filter_by(...).first()` or
`query.get(...)` lookup: update the first element satisfying `p`. -/
def updateFirst (p : α → Bool) (f : α → α) : List α → List α
  | [] => []
  | a :: as => if p a then f a :: as else a :: updateFirst p f as

/-- `load_user` / `current_user` resolution: primary-key lookup. -/
def findUser (db : DB) (uid : Nat) : Option User :=
  db.users.find? (fun u => decide (u.id = uid))

/-- The `filter_by(student_id=uid, internship_id=None)` predicate: a cold
application of student `uid`. -/
def isCold (uid : Nat) (a : Application) : Bool :=
  decide (a.student_id = uid ∧ a.internship_id = none)

/-- The `filter_by(student_id=uid, internship_id=iid)` predicate. -/
def isPair (uid iid : Nat) (a : Application) : Bool :=
  decide (a.student_id = uid ∧ a.internship_id = some iid)

/-- The `filter_by(email=email)` predicate. -/
def byEmail (email : String) (u : User) : Bool := decide (u.email = email)

/-- The `filter_by(reset_token=token)` predicate. -/
def byToken (token : String) (u : User) : Bool := decide (u.reset_token = some token)

/-- The `Application.query.get(app_id)` predicate. -/
def byAppId (appId : Nat) (a : Application) : Bool := decide (a.id = appId)

/-- The `Internship.query.get(id)` predicate. -/
def byIid (iid : Nat) (i : Internship) : Bool := decide (i.id = iid)

/-- The `filter_by(title=title)` predicate. -/
def byTitle (t : String) (i : Internship) : Bool := decide (i.title = t)

/-- Saving an uploaded resume: `current_user.resume_file = filename` followed
by a commit, for the stored name `stored`. -/
def updResume (uid : Nat) (stored : String) (db : DB) : DB :=
  {db with
     users := updateFirst (fun u => decide (u.id = uid))
       (fun u => {u with resume_file := some stored}) db.users}

/-! ## Responses

What a handler hands back to Flask: a rendered template, a redirect
(optionally after a `flash`), a plain string, a small JSON object, a file,
the `/optimize` JSON, or an uncaught exception (HTTP 500). -/

inductive Response where
  | html : String → Response
  | redirect : String → Response
  | flashRedirect : String → String → Response
  | text : String → Response
  | jsonMsg : String → String → Response
  | file : String → Response
  | aiJson : Except Unit OptimizeResponse → Response
  | serverError : Response
deriving DecidableEq

/-! ## Route handlers (app.py lines 287-791)

Each handler takes the database, the session's user id where the route is
`@login_required` (a `uid` that resolves to no user models a dead session:
Flask-Login redirects to the login view `/`), the form/url inputs, and
explicit outcomes for any external effects.  Form fields backing
`nullable=False` columns are `String`s; fields backing nullable columns are
`Option String`.  `secure_filename` is an external sanitiser and is modelled
as the identity on the uploaded name. -/

/-- `GET /` (lines 290-296). `uid` is the authenticated session, if any. -/
def index_h (db : DB) (uid : Option Nat) : DB × Response :=
  match uid with
  | some i =>
    match findUser db i with
    | some u =>
      (db, .redirect (if u.role = "Professor" then "/professor" else "/student"))
    | none => (db, .html "index")
  | none => (db, .html "index")

/-- `POST /login` (lines 299-309).  The success flash takes
`full_name.split()[0]`, which raises when `full_name` is `NULL` or
whitespace-only. -/
def login_h (db : DB) (email password : String) : DB × Response :=
  match db.users.find? (byEmail email) with
  | some u =>
    if u.password = password then
      (db,
       match u.full_name with
       | some n =>
         match (pySplitWS n).head? with
         | some w =>
           .flashRedirect ("Welcome back, " ++ w ++ "!")
             (if u.role = "Professor" then "/professor" else "/student")
         | none => .serverError
       | none => .serverError)
    else (db, .flashRedirect "Invalid email or password." "/")
  | none => (db, .flashRedirect "Invalid email or password." "/")

/-- `POST /signup` (lines 312-327). -/
def signup_h (db : DB) (email password role : String) (full_name : Option String) :
    DB × Response :=
  if db.users.any (byEmail email) then
    (db, .flashRedirect "Account already exists!" "/")
  else
    ({db with
        users := db.users ++
          [⟨db.nextUserId, email, password, role, full_name,
            none, none, none, none, none, none⟩],
        nextUserId := db.nextUserId + 1},
     .redirect "/setup")

/-- `/setup` (lines 330-350).  The `research_domain` form field is written to
an undeclared attribute and is not persisted, so it does not appear. -/
def setup_h (db : DB) (uid : Nat) (isPost : Bool)
    (full_name qualification college phone : Option String)
    (resume : Option String) : DB × Response :=
  match findUser db uid with
  | none => (db, .redirect "/")
  | some user =>
    if isPost then
      ({db with
          users := updateFirst (fun u => decide (u.id = uid))
            (fun u =>
              let u := {u with full_name := full_name,
                               qualification := qualification,
                               college := college, phone := phone}
              match resume with
              | some fname =>
                if fname ≠ "" then
                  {u with resume_file := some (toString uid ++ "_" ++ fname)}
                else u
              | none => u)
            db.users},
       .redirect (if user.role = "Professor" then "/professor" else "/student"))
    else (db, .html "setup")

/-- The cold-application query/update/insert of `/submit_application`:
update the cover letter of the existing cold application, or insert a
fresh one. -/
def submit_core (db : DB) (uid : Nat) (cover : Option String) : DB × Response :=
  match db.applications.find? (isCold uid) with
  | some _ =>
    ({db with
        applications := updateFirst (isCold uid)
          (fun a => {a with cover_letter := cover}) db.applications},
     .jsonMsg "success" "Application Sent Successfully!")
  | none =>
    ({db with
        applications := db.applications ++
          [⟨db.nextAppId, uid, none, cover, "Pending"⟩],
        nextAppId := db.nextAppId + 1},
     .jsonMsg "success" "Application Sent Successfully!")

/-- `POST /submit_application` (lines 353-373): the cold-application
endpoint.  Note that it checks login but not role. -/
def submit_application (db : DB) (uid : Nat) (resume : Option String)
    (cover : Option String) : DB × Response :=
  match findUser db uid with
  | none => (db, .redirect "/")
  | some user =>
    submit_core
      (match resume with
       | some fname => updResume uid (toString user.id ++ "_" ++ fname) db
       | none => db)
      uid cover

/-- `/download_resume/<filename>` (lines 376-379). -/
def download_resume_h (db : DB) (uid : Nat) (filename : String) : DB × Response :=
  match findUser db uid with
  | none => (db, .redirect "/")
  | some _ => (db, .file filename)

/-- `/student` (lines 382-388). -/
def student_h (db : DB) (uid : Nat) : DB × Response :=
  match findUser db uid with
  | none => (db, .redirect "/")
  | some user =>
    if user.role = "Professor" then (db, .redirect "/professor")
    else (db, .html "student")

/-- `/papers` (lines 391-399). -/
def papers_h (db : DB) (uid : Nat) : DB × Response :=
  match findUser db uid with
  | none => (db, .redirect "/")
  | some _ => (db, .html "papers")

/-- `/my_applications` (lines 402-408): Student-gated, but rejection is a
redirect to `/`, not an "Unauthorized" string. -/
def my_applications_h (db : DB) (uid : Nat) : DB × Response :=
  match findUser db uid with
  | none => (db, .redirect "/")
  | some user =>
    if user.role ≠ "Student" then (db, .redirect "/")
    else (db, .html "my_applications")

/-- `POST /optimize` (lines 412-516): reads the current user for the prompt
but never writes the database; the JSON payload is `optimize_route`. -/
def optimize_h (db : DB) (uid : Nat) (professor_name : String)
    (aiCall : Except Unit String) (parse : String → Option AIResult) :
    DB × Response :=
  match findUser db uid with
  | none => (db, .redirect "/")
  | some _ => (db, .aiJson (optimize_route professor_name aiCall parse))

/-- The query-before-insert of `/apply/<id>`: insert a new application for
the pair only when none exists yet. -/
def apply_core (db : DB) (uid iid : Nat) (cover : Option String) : DB :=
  match db.applications.find? (isPair uid iid) with
  | none =>
    {db with
       applications := db.applications ++
         [⟨db.nextAppId, uid, some iid,
           some (cover.getD "Interested in this role."), "Pending"⟩],
       nextAppId := db.nextAppId + 1}
  | some _ => db

/-- `POST /apply/<int:internship_id>` (lines 519-544).  Checks login but not
role; inserts only when no application for the same
(student, internship) pair exists, then saves the optional resume. -/
def apply_for_internship (db : DB) (uid iid : Nat) (cover : Option String)
    (resume : Option String) : DB × Response :=
  match findUser db uid with
  | none => (db, .redirect "/")
  | some user =>
    (match resume with
     | some fname =>
       updResume uid (toString user.id ++ "_" ++ fname) (apply_core db uid iid cover)
     | none => apply_core db uid iid cover,
     .redirect "/my_applications")

/-- `/cold_applications` (lines 547-553). -/
def cold_applications_h (db : DB) (uid : Nat) : DB × Response :=
  match findUser db uid with
  | none => (db, .redirect "/")
  | some user =>
    if user.role ≠ "Professor" then (db, .text "Unauthorized")
    else (db, .html "applicants")

/-- `/professor` (lines 556-562). -/
def professor_h (db : DB) (uid : Nat) : DB × Response :=
  match findUser db uid with
  | none => (db, .redirect "/")
  | some user =>
    if user.role ≠ "Professor" then (db, .redirect "/student")
    else (db, .html "professor")

/-- `POST /post_internship` (lines 565-580). -/
def post_internship (db : DB) (uid : Nat) (title : String)
    (domain description ty : Option String) (vacancies : Option String) :
    DB × Response :=
  match findUser db uid with
  | none => (db, .redirect "/")
  | some user =>
    if user.role ≠ "Professor" then (db, .text "Unauthorized")
    else
      ({db with
          internships := db.internships ++
            [⟨db.nextInternshipId, title, domain, description, ty, none,
              (match vacancies with
               | some v => if v = "" then "Open" else v
               | none => "Open"),
              uid⟩],
          nextInternshipId := db.nextInternshipId + 1},
       .redirect "/professor")

/-- `/view_applicants/<int:id>` (lines 583-592): ownership check; a missing
internship makes `internship.user_id` raise. -/
def view_applicants (db : DB) (uid iid : Nat) : DB × Response :=
  match findUser db uid with
  | none => (db, .redirect "/")
  | some _ =>
    match db.internships.find? (byIid iid) with
    | none => (db, .serverError)
    | some i =>
      if i.user_id ≠ uid then (db, .text "Unauthorized")
      else (db, .html "applicants")

/-- `/all_applications` (lines 595-605). -/
def all_applications_h (db : DB) (uid : Nat) : DB × Response :=
  match findUser db uid with
  | none => (db, .redirect "/")
  | some user =>
    if user.role ≠ "Professor" then (db, .text "Unauthorized")
    else (db, .html "applicants")

/-- `/accept_applicant/<int:app_id>` (lines 608-618).  The status update is
committed before the flash reads `application.student.full_name`; a missing
student row raises only after the commit. -/
def accept_applicant (db : DB) (uid appId : Nat) (referrer : Option String) :
    DB × Response :=
  match findUser db uid with
  | none => (db, .redirect "/")
  | some user =>
    if user.role ≠ "Professor" then (db, .text "Unauthorized")
    else
      match db.applications.find? (byAppId appId) with
      | some ap =>
        let db1 :=
          {db with
             applications := updateFirst (byAppId appId)
               (fun a => {a with status := "Selected"}) db.applications}
        let resp :=
          match findUser db ap.student_id with
          | some st =>
            Response.flashRedirect
              ("Student " ++ (st.full_name.getD "None") ++ " has been selected!")
              (referrer.getD "/professor")
          | none => Response.serverError
        (db1, resp)
      | none => (db, .redirect (referrer.getD "/professor"))

/-! ### `/generate_feed` (lines 621-676) -/

/-- One result of the ArXiv feed search together with the outcome of its
per-item AI summarisation call. -/
structure FeedItem where
  title : String
  summary : String
  pdf_url : String
  ai : Except Unit String
deriving DecidableEq

/-- The description used for a feed item: the AI summary, or on failure
`result.summary[:300] + "..."`. -/
def feedDescr (it : FeedItem) : String :=
  match it.ai with
  | .ok t => t
  | .error _ => pyTake 300 it.summary ++ "..."

def addFeedItem (uid : Nat) (it : FeedItem) (db : DB) : DB :=
  {db with
     internships := db.internships ++
       [⟨db.nextInternshipId, it.title, some "AI & Machine Learning",
         some (feedDescr it), some "Remote Research", some it.pdf_url, "2", uid⟩],
     nextInternshipId := db.nextInternshipId + 1}

/-- The feed loop: skip items whose title already exists (pending inserts
are visible to the query through autoflush), add the rest; also counts the
additions for the flash message. -/
def feedLoop (uid : Nat) : List FeedItem → DB → DB × Nat
  | [], db => (db, 0)
  | it :: rest, db =>
    if db.internships.any (byTitle it.title) then
      feedLoop uid rest db
    else
      let res := feedLoop uid rest (addFeedItem uid it db)
      (res.1, res.2 + 1)

/-- `/generate_feed`.  `feed` is the outcome of iterating the ArXiv client:
an exception anywhere in the iteration rolls back every pending insert, so
it is modelled at whole-list granularity. -/
def generate_feed (db : DB) (uid : Nat) (feed : Except Unit (List FeedItem)) :
    DB × Response :=
  match findUser db uid with
  | none => (db, .redirect "/")
  | some user =>
    if user.role ≠ "Professor" then (db, .text "Unauthorized")
    else
      match feed with
      | .error _ => (db, .flashRedirect "Error generating feed. Check logs." "/professor")
      | .ok items =>
        let res := feedLoop uid items db
        (res.1,
         .flashRedirect
           (if res.2 > 0 then
              "Successfully added " ++ toString res.2 ++ " new papers!"
            else "No new unique papers found.")
           "/professor")

/-- `/contact` (lines 679-682). -/
def contact_h (db : DB) (uid : Nat) : DB × Response :=
  match findUser db uid with
  | none => (db, .redirect "/")
  | some _ => (db, .html "contact")

/-- `/forgot_password` (lines 685-701).  `token` is the generated
`secrets.token_hex(16)`; `now` is `datetime.utcnow()` in seconds.  The
expiry is one hour (3600 seconds) after issuance. -/
def forgot_password (db : DB) (isPost : Bool) (email token : String) (now : Nat) :
    DB × Response :=
  if isPost then
    match db.users.find? (byEmail email) with
    | some _ =>
      ({db with
          users := updateFirst (byEmail email)
            (fun u => {u with reset_token := some token,
                              token_expiry := some (now + 3600)})
            db.users},
       .flashRedirect "Reset link sent to your email (Check Terminal)!" "/forgot_password")
    | none => (db, .flashRedirect "Email not found." "/forgot_password")
  else (db, .html "forgot_password")

/-- `/reset_password/<token>` (lines 704-717). -/
def reset_password (db : DB) (token : String) (isPost : Bool)
    (newPassword : String) (now : Nat) : DB × Response :=
  match db.users.find? (byToken token) with
  | none => (db, .flashRedirect "Invalid or expired token." "/")
  | some u =>
    match u.token_expiry with
    | none => (db, .flashRedirect "Invalid or expired token." "/")
    | some e =>
      if e < now then (db, .flashRedirect "Invalid or expired token." "/")
      else if isPost then
        ({db with
            users := updateFirst (byToken token)
              (fun v => {v with password := newPassword,
                                reset_token := none, token_expiry := none})
              db.users},
         .flashRedirect "Password reset successfully! Please login." "/")
      else (db, .html "reset_password")

/-- `/logout` (lines 720-723): session only. -/
def logout_h (db : DB) : DB × Response := (db, .redirect "/")

/-! ### `/seed_database` (lines 730-790) -/

structure SeedPaper where
  title : String
  domain : String
  type : String
  descr : String

def seedPapers : List SeedPaper :=
  [⟨"Attention Is All You Need", "Deep Learning", "Remote",
    "The seminal paper introducing the Transformer architecture, the foundation of modern LLMs like GPT."⟩,
   ⟨"YOLOv8: Real-Time Detection", "Computer Vision", "Onsite",
    "State-of-the-art real-time object detection model offering SOTA performance on COCO dataset."⟩,
   ⟨"BERT: Pre-training of Deep Transformers", "NLP", "Hybrid",
    "Bidirectional Encoder Representations from Transformers (BERT) revolutionized NLP tasks."⟩,
   ⟨"Llama 2: Open Foundation Models", "Generative AI", "Remote",
    "A collection of open-source pretrained and fine-tuned large language models (LLMs)."⟩]

def addSeedPaper (profId : Nat) (p : SeedPaper) (db : DB) : DB :=
  {db with
     internships := db.internships ++
       [⟨db.nextInternshipId, p.title, some p.domain, some p.descr,
         some p.type, none, "Open", profId⟩],
     nextInternshipId := db.nextInternshipId + 1}

def seedLoop (profId : Nat) : List SeedPaper → DB → DB
  | [], db => db
  | p :: rest, db =>
    if db.internships.any (byTitle p.title) then
      seedLoop profId rest db
    else
      seedLoop profId rest (addSeedPaper profId p db)

/-- The account-creation step of `/seed_database`: create the professor
account unless the email is taken. -/
def seedBase (db : DB) : DB :=
  if db.users.any (byEmail "prof@mit.edu") then db
  else
    {db with
       users := db.users ++
         [⟨db.nextUserId, "prof@mit.edu", "123", "Professor",
           some "Dr. Elara Vance", none, none, none, none, none, none⟩],
       nextUserId := db.nextUserId + 1}

/-- `/seed_database`: no auth at all; attaches the seed papers to whichever
user holds the email `prof@mit.edu`. -/
def seed_database (db : DB) : DB × Response :=
  match (seedBase db).users.find? (byEmail "prof@mit.edu") with
  | some prof =>
    (seedLoop prof.id seedPapers (seedBase db),
     .text "✅ Database initialized! <a href=\x27/\x27>Go to Home</a>")
  | none => (seedBase db, .serverError)

/-! ## All routes as one step function -/

inductive Request where
  | index (uid : Option Nat)
  | login (email password : String)
  | signup (email password role : String) (full_name : Option String)
  | setup (uid : Nat) (isPost : Bool)
      (full_name qualification college phone : Option String) (resume : Option String)
  | submitApplication (uid : Nat) (resume : Option String) (cover : Option String)
  | downloadResume (uid : Nat) (filename : String)
  | studentPage (uid : Nat)
  | papersPage (uid : Nat)
  | myApplications (uid : Nat)
  | optimize (uid : Nat) (professor_name : String) (aiCall : Except Unit String)
      (parse : String → Option AIResult)
  | applyInternship (uid iid : Nat) (cover : Option String) (resume : Option String)
  | coldApplications (uid : Nat)
  | professorPage (uid : Nat)
  | postInternship (uid : Nat) (title : String)
      (domain description ty : Option String) (vacancies : Option String)
  | viewApplicants (uid iid : Nat)
  | allApplications (uid : Nat)
  | acceptApplicant (uid appId : Nat) (referrer : Option String)
  | generateFeed (uid : Nat) (feed : Except Unit (List FeedItem))
  | contactPage (uid : Nat)
  | forgotPassword (isPost : Bool) (email token : String) (now : Nat)
  | resetPassword (token : String) (isPost : Bool) (newPassword : String) (now : Nat)
  | logout
  | seedDatabase

def handle (db : DB) : Request → DB × Response
  | .index uid => index_h db uid
  | .login email password => login_h db email password
  | .signup email password role full_name => signup_h db email password role full_name
  | .setup uid isPost fn q c p r => setup_h db uid isPost fn q c p r
  | .submitApplication uid resume cover => submit_application db uid resume cover
  | .downloadResume uid filename => download_resume_h db uid filename
  | .studentPage uid => student_h db uid
  | .papersPage uid => papers_h db uid
  | .myApplications uid => my_applications_h db uid
  | .optimize uid name aiCall parse => optimize_h db uid name aiCall parse
  | .applyInternship uid iid cover resume => apply_for_internship db uid iid cover resume
  | .coldApplications uid => cold_applications_h db uid
  | .professorPage uid => professor_h db uid
  | .postInternship uid title d de ty v => post_internship db uid title d de ty v
  | .viewApplicants uid iid => view_applicants db uid iid
  | .allApplications uid => all_applications_h db uid
  | .acceptApplicant uid appId ref => accept_applicant db uid appId ref
  | .generateFeed uid feed => generate_feed db uid feed
  | .contactPage uid => contact_h db uid
  | .forgotPassword isPost email token now => forgot_password db isPost email token now
  | .resetPassword token isPost pw now => reset_password db token isPost pw now
  | .logout => logout_h db
  | .seedDatabase => seed_database db

/-- Run a sequence of requests from the empty database. -/
def runAll (reqs : List Request) : DB :=
  reqs.foldl (fun db r => (handle db r).1) initDB

/-- The states the application can reach through its own operations. -/
inductive Reachable : DB → Prop where
  | init : Reachable initDB
  | step {db : DB} (req : Request) : Reachable db → Reachable (handle db req).1

/-! ## Generic lemmas about the embedding's list primitives -/

theorem updateFirst_map {α β : Type} (p : α → Bool) (f : α → α) (g : α → β)
    (hf : ∀ a, g (f a) = g a) :
    ∀ l : List α, (updateFirst p f l).map g = l.map g := by
  intro l
  induction l with
  | nil => rfl
  | cons a as ih =>
    simp only [updateFirst]
    split
    · simp [hf]
    · simp [ih]

theorem countP_updateFirst {α : Type} (p q : α → Bool) (f : α → α)
    (hf : ∀ a, q (f a) = q a) :
    ∀ l : List α, (updateFirst p f l).countP q = l.countP q := by
  intro l
  induction l with
  | nil => rfl
  | cons a as ih =>
    simp only [updateFirst]
    split
    · simp [List.countP_cons, hf]
    · simp [List.countP_cons, ih]

theorem mem_updateFirst_key {α β : Type} (p : α → Bool) (f : α → α) (g : α → β)
    (hf : ∀ a, g (f a) = g a) :
    ∀ {l : List α} {a : α}, a ∈ l → ∃ b ∈ updateFirst p f l, g b = g a := by
  intro l
  induction l with
  | nil => intro a h; cases h
  | cons x xs ih =>
    intro a h
    simp only [updateFirst]
    split
    · rcases List.mem_cons.mp h with h | h
      · exact ⟨f x, List.mem_cons_self _ _, by rw [hf, h]⟩
      · exact ⟨a, List.mem_cons_of_mem _ h, rfl⟩
    · rcases List.mem_cons.mp h with h | h
      · exact ⟨x, List.mem_cons_self _ _, by rw [h]⟩
      · rcases ih h with ⟨b, hb, hgb⟩
        exact ⟨b, List.mem_cons_of_mem _ hb, hgb⟩

theorem find?_updateFirst {α : Type} (p : α → Bool) (f : α → α)
    (hp : ∀ a, p (f a) = p a) :
    ∀ {l : List α} {u : α}, l.find? p = some u →
      (updateFirst p f l).find? p = some (f u) := by
  intro l
  induction l with
  | nil => intro u h; cases h
  | cons x xs ih =>
    intro u h
    by_cases hx : p x = true
    · rw [List.find?_cons_of_pos _ hx] at h
      cases h
      simp only [updateFirst]
      rw [if_pos hx]
      exact List.find?_cons_of_pos _ (by rw [hp]; exact hx)
    · rw [List.find?_cons_of_neg _ hx] at h
      simp only [updateFirst]
      rw [if_neg hx, List.find?_cons_of_neg _ hx]
      exact ih h

theorem find?_decide {α : Type} (q : α → Prop) [DecidablePred q] :
    ∀ {l : List α} {a : α}, l.find? (fun x => decide (q x)) = some a → a ∈ l ∧ q a := by
  intro l
  induction l with
  | nil => intro a h; cases h
  | cons x xs ih =>
    intro a h
    by_cases hx : q x
    · rw [List.find?_cons_of_pos _ (by simpa using hx)] at h
      cases h
      exact ⟨List.mem_cons_self _ _, hx⟩
    · rw [List.find?_cons_of_neg _ (by simpa using hx)] at h
      rcases ih h with ⟨hm, hq⟩
      exact ⟨List.mem_cons_of_mem _ hm, hq⟩

theorem findUser_mem {db : DB} {uid : Nat} {u : User} (h : findUser db uid = some u) :
    u ∈ db.users ∧ u.id = uid := by
  unfold findUser at h
  exact find?_decide _ h

/-- One table only grows: its projection under `g` (for us, the primary key)
is extended on the right. -/
def idsOK {α β : Type} (g : α → β) (l l' : List α) : Prop :=
  ∃ ex, l'.map g = l.map g ++ ex

theorem idsOK_of_eq {α β : Type} (g : α → β) {l l' : List α} (h : l' = l) :
    idsOK g l l' := ⟨[], by simp [h]⟩

theorem idsOK_append {α β : Type} (g : α → β) (l m : List α) :
    idsOK g l (l ++ m) := ⟨m.map g, by simp⟩

theorem idsOK_updateFirst {α β : Type} (g : α → β) (p : α → Bool) (f : α → α)
    (l : List α) (hf : ∀ a, g (f a) = g a) :
    idsOK g l (updateFirst p f l) := ⟨[], by simp [updateFirst_map p f g hf]⟩

/-! ## Loop lemmas for `/generate_feed` and `/seed_database` -/

theorem feedLoop_users (uid : Nat) :
    ∀ (items : List FeedItem) (db : DB), (feedLoop uid items db).1.users = db.users := by
  intro items
  induction items with
  | nil => intro db; rfl
  | cons it rest ih =>
    intro db
    simp only [feedLoop]
    split
    · exact ih db
    · exact ih (addFeedItem uid it db)

theorem feedLoop_applications (uid : Nat) :
    ∀ (items : List FeedItem) (db : DB),
      (feedLoop uid items db).1.applications = db.applications := by
  intro items
  induction items with
  | nil => intro db; rfl
  | cons it rest ih =>
    intro db
    simp only [feedLoop]
    split
    · exact ih db
    · exact ih (addFeedItem uid it db)

theorem feedLoop_internships (uid : Nat) :
    ∀ (items : List FeedItem) (db : DB),
      ∃ ext, (feedLoop uid items db).1.internships = db.internships ++ ext ∧
        ∀ i ∈ ext, i.user_id = uid := by
  intro items
  induction items with
  | nil => intro db; exact ⟨[], by simp [feedLoop], by simp⟩
  | cons it rest ih =>
    intro db
    simp only [feedLoop]
    split
    · exact ih db
    · rcases ih (addFeedItem uid it db) with ⟨ext, hext, hall⟩
      refine ⟨⟨db.nextInternshipId, it.title, some "AI & Machine Learning",
        some (feedDescr it), some "Remote Research", some it.pdf_url, "2", uid⟩ :: ext,
        ?_, ?_⟩
      · rw [hext]; simp [addFeedItem]
      · intro i hi
        rcases List.mem_cons.mp hi with h | h
        · rw [h]
        · exact hall i h

theorem seedLoop_users (pid : Nat) :
    ∀ (papers : List SeedPaper) (db : DB), (seedLoop pid papers db).users = db.users := by
  intro papers
  induction papers with
  | nil => intro db; rfl
  | cons p rest ih =>
    intro db
    simp only [seedLoop]
    split
    · exact ih db
    · exact ih (addSeedPaper pid p db)

theorem seedLoop_applications (pid : Nat) :
    ∀ (papers : List SeedPaper) (db : DB),
      (seedLoop pid papers db).applications = db.applications := by
  intro papers
  induction papers with
  | nil => intro db; rfl
  | cons p rest ih =>
    intro db
    simp only [seedLoop]
    split
    · exact ih db
    · exact ih (addSeedPaper pid p db)

theorem seedLoop_internships (pid : Nat) :
    ∀ (papers : List SeedPaper) (db : DB),
      ∃ ext, (seedLoop pid papers db).internships = db.internships ++ ext ∧
        ∀ i ∈ ext, i.user_id = pid := by
  intro papers
  induction papers with
  | nil => intro db; exact ⟨[], by simp [seedLoop], by simp⟩
  | cons p rest ih =>
    intro db
    simp only [seedLoop]
    split
    · exact ih db
    · rcases ih (addSeedPaper pid p db) with ⟨ext, hext, hall⟩
      refine ⟨⟨db.nextInternshipId, p.title, some p.domain, some p.descr,
        some p.type, none, "Open", pid⟩ :: ext, ?_, ?_⟩
      · rw [hext]; simp [addSeedPaper]
      · intro i hi
        rcases List.mem_cons.mp hi with h | h
        · rw [h]
        · exact hall i h

theorem idsOK_of_append_eq {α β : Type} (g : α → β) {l l' : List α} (m : List α)
    (h : l' = l ++ m) : idsOK g l l' := ⟨m.map g, by rw [h]; simp⟩

/-- Every pre-existing row is still present, with its identity (primary
key), after a request: the id column of each table is only ever extended. -/
def idsExtend (db db' : DB) : Prop :=
  idsOK (fun u : User => u.id) db.users db'.users ∧
  idsOK (fun i : Internship => i.id) db.internships db'.internships ∧
  idsOK (fun a : Application => a.id) db.applications db'.applications

theorem idsExtend_refl (db : DB) : idsExtend db db :=
  ⟨⟨[], by simp⟩, ⟨[], by simp⟩, ⟨[], by simp⟩⟩

theorem idsOK_trans {α β : Type} (g : α → β) {l1 l2 l3 : List α}
    (h1 : idsOK g l1 l2) (h2 : idsOK g l2 l3) : idsOK g l1 l3 := by
  rcases h1 with ⟨e1, he1⟩
  rcases h2 with ⟨e2, he2⟩
  exact ⟨e1 ++ e2, by rw [he2, he1, List.append_assoc]⟩

theorem idsExtend_trans {a b c : DB} (h1 : idsExtend a b) (h2 : idsExtend b c) :
    idsExtend a c :=
  ⟨idsOK_trans _ h1.1 h2.1, idsOK_trans _ h1.2.1 h2.2.1, idsOK_trans _ h1.2.2 h2.2.2⟩

theorem updResume_ids (uid : Nat) (s : String) (db : DB) :
    idsExtend db (updResume uid s db) :=
  ⟨idsOK_updateFirst _ _ _ _ (fun _a => rfl), idsOK_of_eq _ rfl, idsOK_of_eq _ rfl⟩

theorem submit_core_ids (db : DB) (uid : Nat) (cover : Option String) :
    idsExtend db (submit_core db uid cover).1 := by
  unfold submit_core
  rcases hex : db.applications.find? (isCold uid) with _ | a
  · exact ⟨idsOK_of_eq _ rfl, idsOK_of_eq _ rfl, idsOK_append _ _ _⟩
  · exact ⟨idsOK_of_eq _ rfl, idsOK_of_eq _ rfl,
      idsOK_updateFirst _ _ _ _ (fun a => rfl)⟩

theorem apply_core_ids (db : DB) (uid iid : Nat) (cover : Option String) :
    idsExtend db (apply_core db uid iid cover) := by
  unfold apply_core
  rcases hex : db.applications.find? (isPair uid iid) with _ | a
  · exact ⟨idsOK_of_eq _ rfl, idsOK_of_eq _ rfl, idsOK_append _ _ _⟩
  · exact idsExtend_refl db

theorem seedBase_ids (db : DB) : idsExtend db (seedBase db) := by
  unfold seedBase
  split
  · exact idsExtend_refl db
  · exact ⟨idsOK_append _ _ _, idsOK_of_eq _ rfl, idsOK_of_eq _ rfl⟩

theorem seedLoop_ids (pid : Nat) (papers : List SeedPaper) (db : DB) :
    idsExtend db (seedLoop pid papers db) := by
  rcases seedLoop_internships pid papers db with ⟨ext, hext, _⟩
  exact ⟨idsOK_of_eq _ (seedLoop_users pid papers db),
    idsOK_of_append_eq _ ext hext,
    idsOK_of_eq _ (seedLoop_applications pid papers db)⟩

theorem seed_database_ids (db : DB) : idsExtend db (seed_database db).1 := by
  unfold seed_database
  rcases hf : (seedBase db).users.find? (byEmail "prof@mit.edu") with _ | prof
  · exact seedBase_ids db
  · exact idsExtend_trans (seedBase_ids db)
      (seedLoop_ids prof.id seedPapers (seedBase db))

theorem feedLoop_ids (uid : Nat) (items : List FeedItem) (db : DB) :
    idsExtend db (feedLoop uid items db).1 := by
  rcases feedLoop_internships uid items db with ⟨ext, hext, _⟩
  exact ⟨idsOK_of_eq _ (feedLoop_users uid items db),
    idsOK_of_append_eq _ ext hext,
    idsOK_of_eq _ (feedLoop_applications uid items db)⟩

theorem handle_ids (db : DB) (req : Request) : idsExtend db (handle db req).1 := by
  cases req with
  | index uid =>
    simp only [handle, index_h]
    repeat' split
    all_goals exact idsExtend_refl db
  | login email password =>
    simp only [handle, login_h]
    repeat' split
    all_goals exact idsExtend_refl db
  | signup email password role full_name =>
    simp only [handle, signup_h]
    split
    · exact idsExtend_refl db
    · exact ⟨idsOK_append _ _ _, idsOK_of_eq _ rfl, idsOK_of_eq _ rfl⟩
  | setup uid isPost fn q c p r =>
    simp only [handle, setup_h]
    rcases hfu : findUser db uid with _ | user
    · exact idsExtend_refl db
    · dsimp only
      split
      · refine ⟨idsOK_updateFirst _ _ _ _ ?_, idsOK_of_eq _ rfl, idsOK_of_eq _ rfl⟩
        intro a
        cases r with
        | none => rfl
        | some fname =>
          dsimp only
          split <;> rfl
      · exact idsExtend_refl db
  | submitApplication uid resume cover =>
    simp only [handle, submit_application]
    rcases hfu : findUser db uid with _ | user
    · exact idsExtend_refl db
    · cases resume with
      | none => exact submit_core_ids db uid cover
      | some fname =>
        exact idsExtend_trans (updResume_ids uid _ db)
          (submit_core_ids (updResume uid (toString user.id ++ "_" ++ fname) db) uid cover)
  | downloadResume uid filename =>
    simp only [handle, download_resume_h]
    repeat' split
    all_goals exact idsExtend_refl db
  | studentPage uid =>
    simp only [handle, student_h]
    repeat' split
    all_goals exact idsExtend_refl db
  | papersPage uid =>
    simp only [handle, papers_h]
    repeat' split
    all_goals exact idsExtend_refl db
  | myApplications uid =>
    simp only [handle, my_applications_h]
    repeat' split
    all_goals exact idsExtend_refl db
  | optimize uid name aiCall parse =>
    simp only [handle, optimize_h]
    repeat' split
    all_goals exact idsExtend_refl db
  | applyInternship uid iid cover resume =>
    simp only [handle, apply_for_internship]
    rcases hfu : findUser db uid with _ | user
    · exact idsExtend_refl db
    · cases resume with
      | none => exact apply_core_ids db uid iid cover
      | some fname =>
        exact idsExtend_trans (apply_core_ids db uid iid cover)
          (updResume_ids uid _ (apply_core db uid iid cover))
  | coldApplications uid =>
    simp only [handle, cold_applications_h]
    repeat' split
    all_goals exact idsExtend_refl db
  | professorPage uid =>
    simp only [handle, professor_h]
    repeat' split
    all_goals exact idsExtend_refl db
  | postInternship uid title d de ty v =>
    simp only [handle, post_internship]
    rcases hfu : findUser db uid with _ | user
    · exact idsExtend_refl db
    · dsimp only
      split
      · exact idsExtend_refl db
      · exact ⟨idsOK_of_eq _ rfl, idsOK_append _ _ _, idsOK_of_eq _ rfl⟩
  | viewApplicants uid iid =>
    simp only [handle, view_applicants]
    repeat' split
    all_goals exact idsExtend_refl db
  | allApplications uid =>
    simp only [handle, all_applications_h]
    repeat' split
    all_goals exact idsExtend_refl db
  | acceptApplicant uid appId ref =>
    simp only [handle, accept_applicant]
    rcases hfu : findUser db uid with _ | user
    · exact idsExtend_refl db
    · dsimp only
      split
      · exact idsExtend_refl db
      · rcases hap : db.applications.find? (byAppId appId) with _ | ap
        · exact idsExtend_refl db
        · exact ⟨idsOK_of_eq _ rfl, idsOK_of_eq _ rfl,
            idsOK_updateFirst _ _ _ _ (fun a => rfl)⟩
  | generateFeed uid feed =>
    simp only [handle, generate_feed]
    rcases hfu : findUser db uid with _ | user
    · exact idsExtend_refl db
    · dsimp only
      split
      · exact idsExtend_refl db
      · cases feed with
        | error e => exact idsExtend_refl db
        | ok items => exact feedLoop_ids uid items db
  | contactPage uid =>
    simp only [handle, contact_h]
    repeat' split
    all_goals exact idsExtend_refl db
  | forgotPassword isPost email token now =>
    simp only [handle, forgot_password]
    split
    · rcases hfe : db.users.find? (byEmail email) with _ | u
      · exact idsExtend_refl db
      · exact ⟨idsOK_updateFirst _ _ _ _ (fun a => rfl), idsOK_of_eq _ rfl,
          idsOK_of_eq _ rfl⟩
    · exact idsExtend_refl db
  | resetPassword token isPost pw now =>
    simp only [handle, reset_password]
    rcases hft : db.users.find? (byToken token) with _ | u
    · exact idsExtend_refl db
    · dsimp only
      rcases he : u.token_expiry with _ | e
      · exact idsExtend_refl db
      · dsimp only
        split
        · exact idsExtend_refl db
        · split
          · exact ⟨idsOK_updateFirst _ _ _ _ (fun a => rfl), idsOK_of_eq _ rfl,
              idsOK_of_eq _ rfl⟩
          · exact idsExtend_refl db
  | logout =>
    simp only [handle, logout_h]
    exact idsExtend_refl db
  | seedDatabase =>
    simp only [handle]
    exact seed_database_ids db

/-! ## The author invariant (data-model invariants)

`authorOk` is the strongest author property the code maintains: every
Internship's author exists and is either a Professor or the holder of the
seed account email `prof@mit.edu` (the `/seed_database` route attaches the
seed postings to whoever holds that email, whatever their role). -/

def authorOk (db : DB) : Prop :=
  ∀ i ∈ db.internships, ∃ u ∈ db.users,
    u.id = i.user_id ∧ (u.role = "Professor" ∨ u.email = "prof@mit.edu")

/-- The user table evolves without losing anyone's id, role or email. -/
def usersKeep (l l2 : List User) : Prop :=
  ∀ u ∈ l, ∃ v ∈ l2, v.id = u.id ∧ v.role = u.role ∧ v.email = u.email

theorem usersKeep_refl (l : List User) : usersKeep l l :=
  fun u hu => ⟨u, hu, rfl, rfl, rfl⟩

theorem usersKeep_append (l m : List User) : usersKeep l (l ++ m) :=
  fun u hu => ⟨u, List.mem_append_left _ hu, rfl, rfl, rfl⟩

theorem usersKeep_updateFirst (p : User → Bool) (f : User → User) (l : List User)
    (hf : ∀ a, (f a).id = a.id ∧ (f a).role = a.role ∧ (f a).email = a.email) :
    usersKeep l (updateFirst p f l) := by
  intro u hu
  rcases mem_updateFirst_key p f (fun v => (v.id, v.role, v.email))
      (fun a => by rw [Prod.mk.injEq, Prod.mk.injEq]
                   exact ⟨(hf a).1, (hf a).2.1, (hf a).2.2⟩) hu with ⟨b, hb, hkey⟩
  simp only [Prod.mk.injEq] at hkey
  exact ⟨b, hb, hkey.1, hkey.2.1, hkey.2.2⟩

theorem authorOk_preserve {db db2 : DB} (h : authorOk db)
    (hu : usersKeep db.users db2.users)
    (hi : ∀ i ∈ db2.internships, i ∈ db.internships ∨
      ∃ v ∈ db2.users, v.id = i.user_id ∧ (v.role = "Professor" ∨ v.email = "prof@mit.edu")) :
    authorOk db2 := by
  intro i hmem
  rcases hi i hmem with hold | hnew
  · rcases h i hold with ⟨u, hu2, hid, hrest⟩
    rcases hu u hu2 with ⟨v, hv, hvid, hvrole, hvemail⟩
    refine ⟨v, hv, by rw [hvid, hid], ?_⟩
    rcases hrest with hr | he
    · exact Or.inl (by rw [hvrole]; exact hr)
    · exact Or.inr (by rw [hvemail]; exact he)
  · exact hnew

theorem authorOk_frame {db db2 : DB} (h : authorOk db)
    (hu : usersKeep db.users db2.users) (hi : db2.internships = db.internships) :
    authorOk db2 :=
  authorOk_preserve h hu (fun _i hmem => Or.inl (hi ▸ hmem))

theorem updResume_author (uid : Nat) (st : String) {db : DB} (h : authorOk db) :
    authorOk (updResume uid st db) :=
  authorOk_frame h (usersKeep_updateFirst _ _ _ (fun _a => ⟨rfl, rfl, rfl⟩)) rfl

theorem submit_core_author (db : DB) (uid : Nat) (cover : Option String)
    (h : authorOk db) : authorOk (submit_core db uid cover).1 := by
  unfold submit_core
  rcases hex : db.applications.find? (isCold uid) with _ | a
  · exact authorOk_frame h (usersKeep_refl _) rfl
  · exact authorOk_frame h (usersKeep_refl _) rfl

theorem apply_core_author (db : DB) (uid iid : Nat) (cover : Option String)
    (h : authorOk db) : authorOk (apply_core db uid iid cover) := by
  unfold apply_core
  rcases hex : db.applications.find? (isPair uid iid) with _ | a
  · exact authorOk_frame h (usersKeep_refl _) rfl
  · exact h

theorem feedLoop_author (uid : Nat) (items : List FeedItem) (db : DB)
    (hprof : ∃ u ∈ db.users, u.id = uid ∧ u.role = "Professor")
    (h : authorOk db) : authorOk (feedLoop uid items db).1 := by
  rcases feedLoop_internships uid items db with ⟨ext, hext, hall⟩
  refine authorOk_preserve h ?_ ?_
  · rw [feedLoop_users]
    exact usersKeep_refl _
  · intro i hmem
    rw [hext] at hmem
    rcases List.mem_append.mp hmem with hold | hnewm
    · exact Or.inl hold
    · rcases hprof with ⟨u, hu, hid, hrole⟩
      refine Or.inr ⟨u, ?_, ?_, Or.inl hrole⟩
      · rw [feedLoop_users]
        exact hu
      · rw [hid, hall i hnewm]

theorem seedBase_author {db : DB} (h : authorOk db) : authorOk (seedBase db) := by
  unfold seedBase
  split
  · exact h
  · exact authorOk_frame h (usersKeep_append _ _) rfl

theorem seedLoop_author (pid : Nat) (papers : List SeedPaper) (db : DB)
    (hprof : ∃ u ∈ db.users, u.id = pid ∧ u.email = "prof@mit.edu")
    (h : authorOk db) : authorOk (seedLoop pid papers db) := by
  rcases seedLoop_internships pid papers db with ⟨ext, hext, hall⟩
  refine authorOk_preserve h ?_ ?_
  · rw [seedLoop_users]
    exact usersKeep_refl _
  · intro i hmem
    rw [hext] at hmem
    rcases List.mem_append.mp hmem with hold | hnewm
    · exact Or.inl hold
    · rcases hprof with ⟨u, hu, hid, hemail⟩
      refine Or.inr ⟨u, ?_, ?_, Or.inr hemail⟩
      · rw [seedLoop_users]
        exact hu
      · rw [hid, hall i hnewm]

theorem seed_database_author {db : DB} (h : authorOk db) :
    authorOk (seed_database db).1 := by
  unfold seed_database
  rcases hf : (seedBase db).users.find? (byEmail "prof@mit.edu") with _ | prof
  · exact seedBase_author h
  · have hb : prof ∈ (seedBase db).users ∧ prof.email = "prof@mit.edu" := by
      unfold byEmail at hf
      exact find?_decide _ hf
    exact seedLoop_author prof.id seedPapers (seedBase db)
      ⟨prof, hb.1, rfl, hb.2⟩ (seedBase_author h)

theorem handle_author (db : DB) (req : Request) (h : authorOk db) :
    authorOk (handle db req).1 := by
  cases req with
  | index uid =>
    simp only [handle, index_h]
    repeat' split
    all_goals exact h
  | login email password =>
    simp only [handle, login_h]
    repeat' split
    all_goals exact h
  | signup email password role full_name =>
    simp only [handle, signup_h]
    split
    · exact h
    · exact authorOk_frame h (usersKeep_append _ _) rfl
  | setup uid isPost fn q c p r =>
    simp only [handle, setup_h]
    rcases hfu : findUser db uid with _ | user
    · exact h
    · dsimp only
      split
      · refine authorOk_frame h (usersKeep_updateFirst _ _ _ ?_) rfl
        intro a
        cases r with
        | none => exact ⟨rfl, rfl, rfl⟩
        | some fname =>
          dsimp only
          split
          · exact ⟨rfl, rfl, rfl⟩
          · exact ⟨rfl, rfl, rfl⟩
      · exact h
  | submitApplication uid resume cover =>
    simp only [handle, submit_application]
    rcases hfu : findUser db uid with _ | user
    · exact h
    · cases resume with
      | none => exact submit_core_author db uid cover h
      | some fname =>
        exact submit_core_author _ uid cover (updResume_author uid _ h)
  | downloadResume uid filename =>
    simp only [handle, download_resume_h]
    repeat' split
    all_goals exact h
  | studentPage uid =>
    simp only [handle, student_h]
    repeat' split
    all_goals exact h
  | papersPage uid =>
    simp only [handle, papers_h]
    repeat' split
    all_goals exact h
  | myApplications uid =>
    simp only [handle, my_applications_h]
    repeat' split
    all_goals exact h
  | optimize uid name aiCall parse =>
    simp only [handle, optimize_h]
    repeat' split
    all_goals exact h
  | applyInternship uid iid cover resume =>
    simp only [handle, apply_for_internship]
    rcases hfu : findUser db uid with _ | user
    · exact h
    · cases resume with
      | none => exact apply_core_author db uid iid cover h
      | some fname =>
        exact updResume_author uid _ (apply_core_author db uid iid cover h)
  | coldApplications uid =>
    simp only [handle, cold_applications_h]
    repeat' split
    all_goals exact h
  | professorPage uid =>
    simp only [handle, professor_h]
    repeat' split
    all_goals exact h
  | postInternship uid title d de ty v =>
    simp only [handle, post_internship]
    rcases hfu : findUser db uid with _ | user
    · exact h
    · dsimp only
      split
      · exact h
      · rename_i hrole
        refine authorOk_preserve h (usersKeep_refl _) ?_
        intro i hmem
        rcases List.mem_append.mp hmem with hold | hnewm
        · exact Or.inl hold
        · rw [List.mem_singleton.mp hnewm]
          exact Or.inr ⟨user, (findUser_mem hfu).1, (findUser_mem hfu).2,
            Or.inl (not_not.mp hrole)⟩
  | viewApplicants uid iid =>
    simp only [handle, view_applicants]
    repeat' split
    all_goals exact h
  | allApplications uid =>
    simp only [handle, all_applications_h]
    repeat' split
    all_goals exact h
  | acceptApplicant uid appId ref =>
    simp only [handle, accept_applicant]
    rcases hfu : findUser db uid with _ | user
    · exact h
    · dsimp only
      split
      · exact h
      · rcases hap : db.applications.find? (byAppId appId) with _ | ap
        · exact h
        · exact authorOk_frame h (usersKeep_refl _) rfl
  | generateFeed uid feed =>
    simp only [handle, generate_feed]
    rcases hfu : findUser db uid with _ | user
    · exact h
    · dsimp only
      split
      · exact h
      · cases feed with
        | error e => exact h
        | ok items =>
          rename_i hrole
          exact feedLoop_author uid items db
            ⟨user, (findUser_mem hfu).1, (findUser_mem hfu).2, not_not.mp hrole⟩ h
  | contactPage uid =>
    simp only [handle, contact_h]
    repeat' split
    all_goals exact h
  | forgotPassword isPost email token now =>
    simp only [handle, forgot_password]
    split
    · rcases hfe : db.users.find? (byEmail email) with _ | u
      · exact h
      · exact authorOk_frame h
          (usersKeep_updateFirst _ _ _ (fun a => ⟨rfl, rfl, rfl⟩)) rfl
    · exact h
  | resetPassword token isPost pw now =>
    simp only [handle, reset_password]
    rcases hft : db.users.find? (byToken token) with _ | u
    · exact h
    · dsimp only
      rcases he : u.token_expiry with _ | e
      · exact h
      · dsimp only
        split
        · exact h
        · split
          · exact authorOk_frame h
              (usersKeep_updateFirst _ _ _ (fun a => ⟨rfl, rfl, rfl⟩)) rfl
          · exact h
  | logout =>
    simp only [handle, logout_h]
    exact h
  | seedDatabase =>
    simp only [handle]
    exact seed_database_author h

theorem authorOk_init : authorOk initDB := by
  intro i hi
  cases hi

theorem reachable_author {db : DB} (h : Reachable db) : authorOk db := by
  induction h with
  | init => exact authorOk_init
  | step req hdb ih => exact handle_author _ req ih

/-! ## The cold-application invariant -/

/-- Every student has at most one cold application on file. -/
def coldOk (db : DB) : Prop :=
  ∀ uid, db.applications.countP (isCold uid) ≤ 1

theorem countP_zero_of_find?_none {α : Type} (p : α → Bool) {l : List α}
    (h : l.find? p = none) : l.countP p = 0 := by
  rw [List.countP_eq_zero]
  intro a ha
  exact List.find?_eq_none.mp h a ha

theorem submit_core_cold (db : DB) (uid : Nat) (cover : Option String)
    (h : coldOk db) : coldOk (submit_core db uid cover).1 := by
  unfold submit_core
  rcases hex : db.applications.find? (isCold uid) with _ | a
  · intro uid2
    dsimp only
    rw [List.countP_append]
    by_cases huid : uid2 = uid
    · subst huid
      rw [countP_zero_of_find?_none _ hex]
      simp [List.countP_cons, isCold]
    · have hnew : List.countP (isCold uid2)
          [(⟨db.nextAppId, uid, none, cover, "Pending"⟩ : Application)] = 0 := by
        simp [List.countP_cons, isCold]
        exact fun hh => huid hh.symm
      rw [hnew]
      simpa using h uid2
  · intro uid2
    dsimp only
    rw [countP_updateFirst (isCold uid) (isCold uid2)
      (fun a => {a with cover_letter := cover}) (fun a => rfl) db.applications]
    exact h uid2

theorem apply_core_cold (db : DB) (uid iid : Nat) (cover : Option String)
    (h : coldOk db) : coldOk (apply_core db uid iid cover) := by
  unfold apply_core
  rcases hex : db.applications.find? (isPair uid iid) with _ | a
  · intro uid2
    dsimp only
    rw [List.countP_append]
    have hnew : List.countP (isCold uid2)
        [(⟨db.nextAppId, uid, some iid,
           some (cover.getD "Interested in this role."), "Pending"⟩ : Application)] = 0 := by
      simp [List.countP_cons, isCold]
    rw [hnew]
    simpa using h uid2
  · exact h

theorem handle_cold (db : DB) (req : Request) (h : coldOk db) :
    coldOk (handle db req).1 := by
  cases req with
  | index uid =>
    simp only [handle, index_h]
    repeat' split
    all_goals exact h
  | login email password =>
    simp only [handle, login_h]
    repeat' split
    all_goals exact h
  | signup email password role full_name =>
    simp only [handle, signup_h]
    split
    · exact h
    · exact h
  | setup uid isPost fn q c p r =>
    simp only [handle, setup_h]
    rcases hfu : findUser db uid with _ | user
    · exact h
    · dsimp only
      split
      · exact h
      · exact h
  | submitApplication uid resume cover =>
    simp only [handle, submit_application]
    rcases hfu : findUser db uid with _ | user
    · exact h
    · cases resume with
      | none => exact submit_core_cold db uid cover h
      | some fname => exact submit_core_cold _ uid cover h
  | downloadResume uid filename =>
    simp only [handle, download_resume_h]
    repeat' split
    all_goals exact h
  | studentPage uid =>
    simp only [handle, student_h]
    repeat' split
    all_goals exact h
  | papersPage uid =>
    simp only [handle, papers_h]
    repeat' split
    all_goals exact h
  | myApplications uid =>
    simp only [handle, my_applications_h]
    repeat' split
    all_goals exact h
  | optimize uid name aiCall parse =>
    simp only [handle, optimize_h]
    repeat' split
    all_goals exact h
  | applyInternship uid iid cover resume =>
    simp only [handle, apply_for_internship]
    rcases hfu : findUser db uid with _ | user
    · exact h
    · cases resume with
      | none => exact apply_core_cold db uid iid cover h
      | some fname => exact apply_core_cold db uid iid cover h
  | coldApplications uid =>
    simp only [handle, cold_applications_h]
    repeat' split
    all_goals exact h
  | professorPage uid =>
    simp only [handle, professor_h]
    repeat' split
    all_goals exact h
  | postInternship uid title d de ty v =>
    simp only [handle, post_internship]
    rcases hfu : findUser db uid with _ | user
    · exact h
    · dsimp only
      split
      · exact h
      · exact h
  | viewApplicants uid iid =>
    simp only [handle, view_applicants]
    repeat' split
    all_goals exact h
  | allApplications uid =>
    simp only [handle, all_applications_h]
    repeat' split
    all_goals exact h
  | acceptApplicant uid appId ref =>
    simp only [handle, accept_applicant]
    rcases hfu : findUser db uid with _ | user
    · exact h
    · dsimp only
      split
      · exact h
      · rcases hap : db.applications.find? (byAppId appId) with _ | ap
        · exact h
        · intro uid2
          dsimp only
          rw [countP_updateFirst (byAppId appId) (isCold uid2)
            (fun a => {a with status := "Selected"}) (fun a => rfl) db.applications]
          exact h uid2
  | generateFeed uid feed =>
    simp only [handle, generate_feed]
    rcases hfu : findUser db uid with _ | user
    · exact h
    · dsimp only
      split
      · exact h
      · cases feed with
        | error e => exact h
        | ok items =>
          intro uid2
          dsimp only
          rw [feedLoop_applications]
          exact h uid2
  | contactPage uid =>
    simp only [handle, contact_h]
    repeat' split
    all_goals exact h
  | forgotPassword isPost email token now =>
    simp only [handle, forgot_password]
    split
    · rcases hfe : db.users.find? (byEmail email) with _ | u
      · exact h
      · exact h
    · exact h
  | resetPassword token isPost pw now =>
    simp only [handle, reset_password]
    rcases hft : db.users.find? (byToken token) with _ | u
    · exact h
    · dsimp only
      rcases he : u.token_expiry with _ | e
      · exact h
      · dsimp only
        split
        · exact h
        · split
          · exact h
          · exact h
  | logout =>
    simp only [handle, logout_h]
    exact h
  | seedDatabase =>
    simp only [handle]
    unfold seed_database
    rcases hf : (seedBase db).users.find? (byEmail "prof@mit.edu") with _ | prof
    · intro uid2
      have hb : (seedBase db).applications = db.applications := by
        unfold seedBase
        split
        · rfl
        · rfl
      rw [hb]
      exact h uid2
    · intro uid2
      dsimp only
      rw [seedLoop_applications]
      have hb : (seedBase db).applications = db.applications := by
        unfold seedBase
        split
        · rfl
        · rfl
      rw [hb]
      exact h uid2

theorem coldOk_init : coldOk initDB := by
  intro uid
  simp [initDB]

theorem reachable_cold {db : DB} (h : Reachable db) : coldOk db := by
  induction h with
  | init => exact coldOk_init
  | step req hdb ih => exact handle_cold _ req ih

/-! ## Claim theorems -/

theorem pyTake_length (n : Nat) (s : String) : (pyTake n s).length ≤ n := by
  simp only [pyTake, String.length]
  rw [List.length_take]
  exact min_le_left _ _

/-- C10: scrape_website_text is total and bounded: its result never exceeds
6000 characters, and it is the empty string whenever the url is empty, the
fetch raises, the HTTP status is not 200, or the HTML parsing raises. -/
theorem C10_scrape_total_bounded (url : String) (fetch : Except Unit (Nat × String))
    (soupText : String → Except Unit String) :
    (scrape_website_text url fetch soupText).length ≤ 6000 ∧
    (url = "" → scrape_website_text url fetch soupText = "") ∧
    (fetch = .error () → scrape_website_text url fetch soupText = "") ∧
    (∀ code body, fetch = .ok (code, body) → code ≠ 200 →
      scrape_website_text url fetch soupText = "") ∧
    (∀ code body, fetch = .ok (code, body) → soupText body = .error () →
      scrape_website_text url fetch soupText = "") := by
  refine ⟨?_, ?_, ?_, ?_, ?_⟩
  · unfold scrape_website_text
    split
    · decide
    · cases fetch with
      | error e => dsimp only; decide
      | ok p =>
        obtain ⟨code, body⟩ := p
        dsimp only
        split
        · decide
        · rcases hst : soupText body with e | t
          · dsimp only; decide
          · exact pyTake_length 6000 _
  · intro h
    unfold scrape_website_text
    rw [if_pos h]
  · intro h
    subst h
    unfold scrape_website_text
    split
    · rfl
    · rfl
  · intro code body hf hcode
    subst hf
    unfold scrape_website_text
    split
    · rfl
    · dsimp only
      rw [if_pos hcode]
  · intro code body hf hsoup
    subst hf
    unfold scrape_website_text
    split
    · rfl
    · dsimp only
      split
      · rfl
      · rw [hsoup]

/-- Witness for C10 at concrete inputs: an empty url and a 404 status both
yield the empty string. -/
theorem C10_witness :
    scrape_website_text "" (.error ()) (fun s => Except.ok s) = "" ∧
    scrape_website_text "http://x" (.ok (404, "<p>hi</p>")) (fun s => Except.ok s) = "" :=
  ⟨(C10_scrape_total_bounded "" (.error ()) (fun s => Except.ok s)).2.1 rfl,
   (C10_scrape_total_bounded "http://x" (.ok (404, "<p>hi</p>")) (fun s => Except.ok s)).2.2.2.1
     404 "<p>hi</p>" rfl (by decide)⟩

/-- Counterexample for C5 as stated: when the input is an arXiv URL and both
sources fail, the placeholder title is the extracted arXiv id, not the input
query. -/
theorem C5_counterexample :
    (get_paper_metadata "https://arxiv.org/abs/1706.03762"
        (.error ()) (.error ())).title = "1706.03762" ∧
    (get_paper_metadata "https://arxiv.org/abs/1706.03762"
        (.error ()) (.error ())).title ≠ "https://arxiv.org/abs/1706.03762" := by
  decide

/-- C5 (amended): get_paper_metadata returns the Semantic Scholar hit when
there is one; when Semantic Scholar yields nothing and the ArXiv fallback
fails or finds no entry, it returns the placeholder whose title is the query
after arXiv-id rewriting, whose abstract is the fixed message, and whose
author list is empty. -/
theorem C5_metadata_fallback :
    (∀ (query : String) (ss : Except Unit (Nat × List Metadata))
       (ax : Except Unit (Option ArxivEntry)) (m : Metadata),
       ssHit ss = some m → get_paper_metadata query ss ax = m) ∧
    (∀ (query : String) (ss : Except Unit (Nat × List Metadata))
       (ax : Except Unit (Option ArxivEntry)),
       ssHit ss = none → (ax = .error () ∨ ax = .ok none) →
       get_paper_metadata query ss ax =
         ⟨(extract_arxiv_id query).getD query,
          "No abstract found. Please provide text content directly.", [], none⟩) := by
  constructor
  · intro query ss ax m hss
    unfold get_paper_metadata
    rw [hss]
  · intro query ss ax hss hax
    unfold get_paper_metadata
    rw [hss]
    rcases hax with rfl | rfl
    · rfl
    · rfl

/-- Witness for C5 at concrete inputs: a Semantic Scholar hit is returned
as-is, and a double failure yields the placeholder. -/
theorem C5_witness :
    get_paper_metadata "bert" (.ok (200, [⟨"BERT", "abs", ["J"], none⟩])) (.error ())
        = ⟨"BERT", "abs", ["J"], none⟩ ∧
    get_paper_metadata "bert" (.error ()) (.error ())
        = ⟨"bert", "No abstract found. Please provide text content directly.", [], none⟩ :=
  ⟨C5_metadata_fallback.1 "bert" (.ok (200, [⟨"BERT", "abs", ["J"], none⟩])) (.error ())
     ⟨"BERT", "abs", ["J"], none⟩ rfl,
   C5_metadata_fallback.2 "bert" (.error ()) (.error ()) (by decide) (Or.inl rfl)⟩

/-- Counterexample for C6 as stated: with a whitespace-only professor name,
the fallback handler itself raises (building the templated email evaluates
`professor_name.split()[-1]` on an empty list), so the endpoint does not
always respond with a well-formed payload. -/
theorem C6_counterexample :
    optimize_route " " (.error ()) (fun _t => none) = .error () := by
  decide

/-- C6 (amended): when the AI call raises, or its response text parses as
JSON neither directly nor after markdown cleaning, the route answers with
the hardcoded fallback payload (summary, skills, citation_score and the
templated email addressed to the last token of the professor name) —
provided the professor name is empty or contains a non-whitespace token. -/
theorem C6_optimize_fallback (professor_name : String) (aiCall : Except Unit String)
    (parse : String → Option AIResult)
    (hname : professor_name = "" ∨ pySplitWS professor_name ≠ [])
    (hfail : aiCall = .error () ∨
      ∃ t, aiCall = .ok t ∧ parse t = none ∧ parse (clean_json_text t) = none) :
    ∃ w, lastTokenOpt professor_name = some w ∧
      optimize_route professor_name aiCall parse =
        .ok ⟨⟨"Could not analyze content deeper.", ["Manual Review"], "N/A",
              "Check Listing", "Unknown"⟩, fallbackEmail w⟩ := by
  have hw : ∃ w, lastTokenOpt professor_name = some w := by
    rcases hname with h | h
    · exact ⟨"", by simp [lastTokenOpt, h]⟩
    · unfold lastTokenOpt
      split
      · exact ⟨"", rfl⟩
      · rcases hg : (pySplitWS professor_name).getLast? with _ | w
        · exact absurd (List.getLast?_eq_none_iff.mp hg) h
        · exact ⟨w, rfl⟩
  rcases hw with ⟨w, hwid⟩
  refine ⟨w, hwid, ?_⟩
  unfold optimize_route
  rw [hwid]
  rcases hfail with rfl | ⟨t, rfl, h1, h2⟩
  · rfl
  · dsimp only
    rw [h1, h2]

/-- Witness for C6 at a concrete input: an AI exception yields the fallback
payload addressed to the last name token. -/
theorem C6_witness :
    ∃ w, lastTokenOpt "Ada Lovelace" = some w ∧
      optimize_route "Ada Lovelace" (.error ()) (fun _t => none) =
        .ok ⟨⟨"Could not analyze content deeper.", ["Manual Review"], "N/A",
              "Check Listing", "Unknown"⟩, fallbackEmail w⟩ :=
  C6_optimize_fallback "Ada Lovelace" (.error ()) (fun _t => none)
    (Or.inr (by decide)) (Or.inl rfl)

/-- A convenience form of the cover-letter-only update of `submit_core`. -/
theorem submit_core_update (db : DB) (uid : Nat) (cover : Option String)
    (a : Application) (hex : db.applications.find? (isCold uid) = some a) :
    (submit_core db uid cover).1.applications =
      updateFirst (isCold uid) (fun b => {b with cover_letter := cover})
        db.applications := by
  unfold submit_core
  rw [hex]

theorem submit_core_resp (db : DB) (uid : Nat) (cover : Option String) :
    (submit_core db uid cover).2 =
      Response.jsonMsg "success" "Application Sent Successfully!" := by
  unfold submit_core
  rcases hex : db.applications.find? (isCold uid) with _ | a
  · rfl
  · rfl

/-- C4: when an Application for the (student, internship) pair already exists,
apply_for_internship inserts nothing: the applications table is unchanged
(the check is the query before the insert; the embedded schema, like the
real one, has no uniqueness constraint on the pair). -/
theorem C4_no_duplicate_application (db : DB) (uid iid : Nat)
    (cover resume : Option String)
    (hexists : ∃ a ∈ db.applications, a.student_id = uid ∧ a.internship_id = some iid) :
    (apply_for_internship db uid iid cover resume).1.applications =
      db.applications := by
  have hfind : ∀ b, db.applications.find? (isPair uid iid) = b → b ≠ none := by
    intro b hb hbn
    subst hbn
    rcases hexists with ⟨a, ha, h1, h2⟩
    exact (List.find?_eq_none.mp hb a ha) (by simp [isPair, h1, h2])
  rcases hex : db.applications.find? (isPair uid iid) with _ | a
  · exact absurd rfl (hfind none hex)
  · unfold apply_for_internship
    rcases hfu : findUser db uid with _ | user
    · rfl
    · dsimp only
      cases resume with
      | none =>
        unfold apply_core
        rw [hex]
      | some fname =>
        unfold updResume apply_core
        rw [hex]

/-- Witness for C4 at a concrete execution: a second application to the same
posting by the same student leaves the applications table unchanged. -/
theorem C4_witness :
    (apply_for_internship
        (runAll [Request.seedDatabase,
                 Request.signup "s@x.com" "pw" "Student" (some "Stu"),
                 Request.applyInternship 2 1 none none])
        2 1 (some "again") none).1.applications =
      (runAll [Request.seedDatabase,
               Request.signup "s@x.com" "pw" "Student" (some "Stu"),
               Request.applyInternship 2 1 none none]).applications :=
  C4_no_duplicate_application _ 2 1 (some "again") none (by decide)

/-- C3: a reset token expires one hour (3600 s) after issuance: forgot_password
stamps `now + 3600` on the user; reset_password with an unknown token, or
with a token whose expiry is strictly in the past, flashes
"Invalid or expired token.", redirects to "/", and leaves the database
(password, reset_token, token_expiry included) unchanged; and the database
changes only on a POST whose token was found with `now ≤ expiry`. -/
theorem C3_reset_expiry :
    (∀ (db : DB) (email token : String) (now : Nat) (u : User),
       db.users.find? (byEmail email) = some u →
       (forgot_password db true email token now).1.users.find? (byEmail email) =
         some {u with reset_token := some token, token_expiry := some (now + 3600)}) ∧
    (∀ (db : DB) (token : String) (isPost : Bool) (pw : String) (now : Nat),
       db.users.find? (byToken token) = none →
       reset_password db token isPost pw now =
         (db, Response.flashRedirect "Invalid or expired token." "/")) ∧
    (∀ (db : DB) (token : String) (isPost : Bool) (pw : String) (now : Nat)
       (u : User) (e : Nat),
       db.users.find? (byToken token) = some u → u.token_expiry = some e →
       e < now →
       reset_password db token isPost pw now =
         (db, Response.flashRedirect "Invalid or expired token." "/")) ∧
    (∀ (db : DB) (token : String) (isPost : Bool) (pw : String) (now : Nat),
       (reset_password db token isPost pw now).1 ≠ db →
       isPost = true ∧ ∃ u e, db.users.find? (byToken token) = some u ∧
         u.token_expiry = some e ∧ now ≤ e) := by
  refine ⟨?_, ?_, ?_, ?_⟩
  · intro db email token now u hfe
    unfold forgot_password
    rw [if_pos rfl, hfe]
    dsimp only
    exact find?_updateFirst (byEmail email)
      (fun u => {u with reset_token := some token, token_expiry := some (now + 3600)})
      (fun a => rfl) hfe
  · intro db token isPost pw now hft
    unfold reset_password
    rw [hft]
  · intro db token isPost pw now u e hft he hlt
    unfold reset_password
    rw [hft]
    dsimp only
    rw [he]
    dsimp only
    rw [if_pos hlt]
  · intro db token isPost pw now hne
    rcases hft : db.users.find? (byToken token) with _ | u
    · exact absurd (by unfold reset_password; rw [hft]) hne
    · rcases he : u.token_expiry with _ | e
      · refine absurd ?_ hne
        unfold reset_password
        rw [hft]
        dsimp only
        rw [he]
      · by_cases hlt : e < now
        · refine absurd ?_ hne
          unfold reset_password
          rw [hft]
          dsimp only
          rw [he]
          dsimp only
          rw [if_pos hlt]
        · cases isPost with
          | false =>
            refine absurd ?_ hne
            unfold reset_password
            rw [hft]
            dsimp only
            rw [he]
            dsimp only
            rw [if_neg hlt]
            rfl
          | true => exact ⟨rfl, u, e, rfl, he, Nat.not_lt.mp hlt⟩

/-- Witness for C3 at concrete inputs: issuing a token at time 100 stamps
expiry 3700; an unknown token and an expired token are rejected with the
database unchanged; and a successful POST at time 50 implies the token was
live. -/
theorem C3_witness :
    ((forgot_password (runAll [Request.signup "a@b.c" "pw" "Student" (some "S")])
        true "a@b.c" "tok" 100).1.users.find? (byEmail "a@b.c") =
      some ⟨1, "a@b.c", "pw", "Student", some "S", none, none, none, none,
            some "tok", some 3700⟩) ∧
    (reset_password (runAll [Request.signup "a@b.c" "pw" "Student" (some "S")])
        "zzz" true "new" 0 =
      (runAll [Request.signup "a@b.c" "pw" "Student" (some "S")],
       Response.flashRedirect "Invalid or expired token." "/")) ∧
    (reset_password (runAll [Request.signup "a@b.c" "pw" "Student" (some "S"),
        Request.forgotPassword true "a@b.c" "tok" 100]) "tok" true "new" 5000 =
      (runAll [Request.signup "a@b.c" "pw" "Student" (some "S"),
        Request.forgotPassword true "a@b.c" "tok" 100],
       Response.flashRedirect "Invalid or expired token." "/")) ∧
    (true = true ∧ ∃ u e,
      (runAll [Request.signup "a@b.c" "pw" "Student" (some "S"),
        Request.forgotPassword true "a@b.c" "tok" 100]).users.find? (byToken "tok")
        = some u ∧ u.token_expiry = some e ∧ 50 ≤ e) := by
  refine ⟨?_, ?_, ?_, ?_⟩
  · have h := C3_reset_expiry.1 (runAll [Request.signup "a@b.c" "pw" "Student" (some "S")])
      "a@b.c" "tok" 100 ⟨1, "a@b.c", "pw", "Student", some "S", none, none, none,
        none, none, none⟩ (by decide)
    exact h
  · exact C3_reset_expiry.2.1 _ "zzz" true "new" 0 (by decide)
  · exact C3_reset_expiry.2.2.1 _ "tok" true "new" 5000
      ⟨1, "a@b.c", "pw", "Student", some "S", none, none, none, none,
       some "tok", some 3700⟩ 3700 (by decide) rfl (by decide)
  · exact C3_reset_expiry.2.2.2 _ "tok" true "new" 50 (by decide)

/-! ## Role gating claims -/

/-- The session uid of each Professor-only route of the claim list. -/
def profRouteUid : Request → Option Nat
  | .professorPage uid => some uid
  | .postInternship uid _ _ _ _ _ => some uid
  | .coldApplications uid => some uid
  | .allApplications uid => some uid
  | .acceptApplicant uid _ _ => some uid
  | .generateFeed uid _ => some uid
  | _ => none

/-- C1 (amended): the Professor-only routes (/professor, /post_internship,
/cold_applications, /all_applications, /accept_applicant, /generate_feed) do
enforce login and role: a logged-in caller whose role is not "Professor"
leaves the database unchanged and receives "Unauthorized" or a redirect.
(The claim's second half — that every state-changing route checks the
caller's role — fails: see the counterexample, where a Professor creates an
Application through /submit_application, which checks only login.) -/
theorem C1_professor_routes_gated (db : DB) (req : Request) (uid : Nat) (u : User)
    (hroute : profRouteUid req = some uid) (hfu : findUser db uid = some u)
    (hrole : u.role ≠ "Professor") :
    (handle db req).1 = db ∧
      ((handle db req).2 = Response.text "Unauthorized" ∨
       (handle db req).2 = Response.redirect "/student") := by
  cases req with
  | professorPage uid2 =>
    simp only [profRouteUid, Option.some.injEq] at hroute
    subst hroute
    simp only [handle, professor_h]
    rw [hfu]
    dsimp only
    rw [if_pos hrole]
    exact ⟨rfl, Or.inr rfl⟩
  | postInternship uid2 title d de ty v =>
    simp only [profRouteUid, Option.some.injEq] at hroute
    subst hroute
    simp only [handle, post_internship]
    rw [hfu]
    dsimp only
    rw [if_pos hrole]
    exact ⟨rfl, Or.inl rfl⟩
  | coldApplications uid2 =>
    simp only [profRouteUid, Option.some.injEq] at hroute
    subst hroute
    simp only [handle, cold_applications_h]
    rw [hfu]
    dsimp only
    rw [if_pos hrole]
    exact ⟨rfl, Or.inl rfl⟩
  | allApplications uid2 =>
    simp only [profRouteUid, Option.some.injEq] at hroute
    subst hroute
    simp only [handle, all_applications_h]
    rw [hfu]
    dsimp only
    rw [if_pos hrole]
    exact ⟨rfl, Or.inl rfl⟩
  | acceptApplicant uid2 appId ref =>
    simp only [profRouteUid, Option.some.injEq] at hroute
    subst hroute
    simp only [handle, accept_applicant]
    rw [hfu]
    dsimp only
    rw [if_pos hrole]
    exact ⟨rfl, Or.inl rfl⟩
  | generateFeed uid2 feed =>
    simp only [profRouteUid, Option.some.injEq] at hroute
    subst hroute
    simp only [handle, generate_feed]
    rw [hfu]
    dsimp only
    rw [if_pos hrole]
    exact ⟨rfl, Or.inl rfl⟩
  | index uid2 => simp [profRouteUid] at hroute
  | login email password => simp [profRouteUid] at hroute
  | signup email password role full_name => simp [profRouteUid] at hroute
  | setup uid2 isPost fn q c p r => simp [profRouteUid] at hroute
  | submitApplication uid2 resume cover => simp [profRouteUid] at hroute
  | downloadResume uid2 filename => simp [profRouteUid] at hroute
  | studentPage uid2 => simp [profRouteUid] at hroute
  | papersPage uid2 => simp [profRouteUid] at hroute
  | myApplications uid2 => simp [profRouteUid] at hroute
  | optimize uid2 name aiCall parse => simp [profRouteUid] at hroute
  | applyInternship uid2 iid cover resume => simp [profRouteUid] at hroute
  | viewApplicants uid2 iid => simp [profRouteUid] at hroute
  | contactPage uid2 => simp [profRouteUid] at hroute
  | forgotPassword isPost email token now => simp [profRouteUid] at hroute
  | resetPassword token isPost pw now => simp [profRouteUid] at hroute
  | logout => simp [profRouteUid] at hroute
  | seedDatabase => simp [profRouteUid] at hroute

/-- Witness for C1 at a concrete state: a logged-in Student requesting
/professor is bounced without touching the database. -/
theorem C1_witness :
    (handle (runAll [Request.signup "s@x.com" "pw" "Student" (some "Stu")])
        (Request.professorPage 1)).1 =
      runAll [Request.signup "s@x.com" "pw" "Student" (some "Stu")] ∧
    ((handle (runAll [Request.signup "s@x.com" "pw" "Student" (some "Stu")])
        (Request.professorPage 1)).2 = Response.text "Unauthorized" ∨
     (handle (runAll [Request.signup "s@x.com" "pw" "Student" (some "Stu")])
        (Request.professorPage 1)).2 = Response.redirect "/student") :=
  C1_professor_routes_gated _ (Request.professorPage 1) 1
    ⟨1, "s@x.com", "pw", "Student", some "Stu", none, none, none, none, none, none⟩
    rfl (by decide) (by decide)

/-- Counterexample for C1 as stated: /submit_application is state-changing
but checks only login, not role — a logged-in Professor creates an
Application record through it. -/
theorem C1_counterexample :
    (handle (runAll [Request.signup "p@x.com" "pw" "Professor" (some "Dr P")])
        (Request.submitApplication 1 none (some "hi"))).1.applications.length = 1 ∧
    (runAll [Request.signup "p@x.com" "pw" "Professor" (some "Dr P")]).applications.length
        = 0 ∧
    (findUser (runAll [Request.signup "p@x.com" "pw" "Professor" (some "Dr P")]) 1).map
        User.role = some "Professor" := by
  decide

/-- The Application-student half of the claimed data-model invariant. -/
def appStudentRoleInv (db : DB) : Prop :=
  ∀ a ∈ db.applications, ∃ u ∈ db.users, u.id = a.student_id ∧ u.role = "Student"

instance (db : DB) : Decidable (appStudentRoleInv db) := by
  unfold appStudentRoleInv
  infer_instance

/-- Counterexample for C2 as stated: a reachable state (Professor signup
followed by a cold application) in which an Application's student has role
"Professor". -/
theorem C2_counterexample :
    Reachable (runAll [Request.signup "p@x.com" "pw" "Professor" (some "Dr P"),
      Request.submitApplication 1 none (some "hi")]) ∧
    ¬ appStudentRoleInv (runAll [Request.signup "p@x.com" "pw" "Professor" (some "Dr P"),
      Request.submitApplication 1 none (some "hi")]) := by
  constructor
  · exact Reachable.step _ (Reachable.step _ Reachable.init)
  · decide

/-- C2 (amended): in every reachable state, every Internship's author exists
and has role "Professor" — or is the holder of the seed email
`prof@mit.edu`, to whom /seed_database attaches the seed postings regardless
of role.  The Application half of the claim fails (see the counterexample):
submit_application and apply_for_internship never check the caller's role. -/
theorem C2_internship_author_invariant (db : DB) (h : Reachable db) :
    authorOk db :=
  reachable_author h

/-- Witness for C2 on a concrete reachable state: the seeded database
satisfies the author invariant. -/
theorem C2_witness : authorOk (runAll [Request.seedDatabase]) :=
  C2_internship_author_invariant _ (Reachable.step _ Reachable.init)

/-- The session uid of the routes that answer unauthorized role with the
plain string. -/
def unauthRouteUid : Request → Option Nat
  | .postInternship uid _ _ _ _ _ => some uid
  | .coldApplications uid => some uid
  | .allApplications uid => some uid
  | .acceptApplicant uid _ _ => some uid
  | .generateFeed uid _ => some uid
  | _ => none

/-- C8 (amended): the Professor-only action routes (/post_internship,
/cold_applications, /all_applications, /accept_applicant, /generate_feed)
and the ownership-gated /view_applicants answer an unauthorized caller with
the plain string "Unauthorized"; but the page routes /professor, /student
and /my_applications redirect instead (see the counterexample). -/
theorem C8_unauthorized_plain_string :
    (∀ (db : DB) (req : Request) (uid : Nat) (u : User),
       unauthRouteUid req = some uid → findUser db uid = some u →
       u.role ≠ "Professor" →
       (handle db req).2 = Response.text "Unauthorized") ∧
    (∀ (db : DB) (uid iid : Nat) (u : User) (i : Internship),
       findUser db uid = some u → db.internships.find? (byIid iid) = some i →
       i.user_id ≠ uid →
       (handle db (Request.viewApplicants uid iid)).2 =
         Response.text "Unauthorized") := by
  constructor
  · intro db req uid u hroute hfu hrole
    cases req with
    | postInternship uid2 title d de ty v =>
      simp only [unauthRouteUid, Option.some.injEq] at hroute
      subst hroute
      simp only [handle, post_internship]
      rw [hfu]
      dsimp only
      rw [if_pos hrole]
    | coldApplications uid2 =>
      simp only [unauthRouteUid, Option.some.injEq] at hroute
      subst hroute
      simp only [handle, cold_applications_h]
      rw [hfu]
      dsimp only
      rw [if_pos hrole]
    | allApplications uid2 =>
      simp only [unauthRouteUid, Option.some.injEq] at hroute
      subst hroute
      simp only [handle, all_applications_h]
      rw [hfu]
      dsimp only
      rw [if_pos hrole]
    | acceptApplicant uid2 appId ref =>
      simp only [unauthRouteUid, Option.some.injEq] at hroute
      subst hroute
      simp only [handle, accept_applicant]
      rw [hfu]
      dsimp only
      rw [if_pos hrole]
    | generateFeed uid2 feed =>
      simp only [unauthRouteUid, Option.some.injEq] at hroute
      subst hroute
      simp only [handle, generate_feed]
      rw [hfu]
      dsimp only
      rw [if_pos hrole]
    | index uid2 => simp [unauthRouteUid] at hroute
    | login email password => simp [unauthRouteUid] at hroute
    | signup email password role full_name => simp [unauthRouteUid] at hroute
    | setup uid2 isPost fn q c p r => simp [unauthRouteUid] at hroute
    | submitApplication uid2 resume cover => simp [unauthRouteUid] at hroute
    | downloadResume uid2 filename => simp [unauthRouteUid] at hroute
    | studentPage uid2 => simp [unauthRouteUid] at hroute
    | papersPage uid2 => simp [unauthRouteUid] at hroute
    | myApplications uid2 => simp [unauthRouteUid] at hroute
    | optimize uid2 name aiCall parse => simp [unauthRouteUid] at hroute
    | applyInternship uid2 iid cover resume => simp [unauthRouteUid] at hroute
    | viewApplicants uid2 iid => simp [unauthRouteUid] at hroute
    | professorPage uid2 => simp [unauthRouteUid] at hroute
    | contactPage uid2 => simp [unauthRouteUid] at hroute
    | forgotPassword isPost email token now => simp [unauthRouteUid] at hroute
    | resetPassword token isPost pw now => simp [unauthRouteUid] at hroute
    | logout => simp [unauthRouteUid] at hroute
    | seedDatabase => simp [unauthRouteUid] at hroute
  · intro db uid iid u i hfu hfi hown
    simp only [handle, view_applicants]
    rw [hfu]
    dsimp only
    rw [hfi]
    dsimp only
    rw [if_pos hown]

/-- Witness for C8: a Student requesting /cold_applications gets the plain
string, and so does a Professor viewing applicants of another professor's
posting. -/
theorem C8_witness :
    (handle (runAll [Request.signup "s@x.com" "pw" "Student" (some "Stu")])
        (Request.coldApplications 1)).2 = Response.text "Unauthorized" ∧
    (handle (runAll [Request.seedDatabase,
        Request.signup "q@x.com" "pw" "Professor" (some "Dr Q")])
        (Request.viewApplicants 2 1)).2 = Response.text "Unauthorized" :=
  ⟨C8_unauthorized_plain_string.1 _ (Request.coldApplications 1) 1
     ⟨1, "s@x.com", "pw", "Student", some "Stu", none, none, none, none, none, none⟩
     rfl (by decide) (by decide),
   C8_unauthorized_plain_string.2 _ 2 1
     ⟨2, "q@x.com", "pw", "Professor", some "Dr Q", none, none, none, none, none, none⟩
     ⟨1, "Attention Is All You Need", some "Deep Learning",
      some "The seminal paper introducing the Transformer architecture, the foundation of modern LLMs like GPT.",
      some "Remote", none, "Open", 1⟩
     (by decide) (by decide) (by decide)⟩

/-- Counterexample for C8 as stated: /my_applications is role-gated
(Student-only), yet an unauthorized caller (a Professor) receives a redirect
to "/", not the string "Unauthorized".  (/professor likewise redirects.) -/
theorem C8_counterexample :
    (handle (runAll [Request.signup "p@x.com" "pw" "Professor" (some "Dr P")])
        (Request.myApplications 1)).2 = Response.redirect "/" ∧
    (handle (runAll [Request.signup "p@x.com" "pw" "Professor" (some "Dr P")])
        (Request.myApplications 1)).2 ≠ Response.text "Unauthorized" ∧
    (findUser (runAll [Request.signup "p@x.com" "pw" "Professor" (some "Dr P")]) 1).map
        User.role = some "Professor" := by
  decide

/-- C9: every student has at most one cold application in every reachable
state; when a cold application already exists, submit_application rewrites
its cover letter in place (no insertion); and the route always answers the
success JSON payload. -/
theorem C9_single_cold_application (db : DB) :
    (Reachable db → ∀ uid, db.applications.countP (isCold uid) ≤ 1) ∧
    (∀ (uid : Nat) (u : User) (resume cover : Option String),
       findUser db uid = some u →
       (submit_application db uid resume cover).2 =
         Response.jsonMsg "success" "Application Sent Successfully!") ∧
    (∀ (uid : Nat) (u : User) (resume cover : Option String) (a : Application),
       findUser db uid = some u →
       db.applications.find? (isCold uid) = some a →
       (submit_application db uid resume cover).1.applications =
         updateFirst (isCold uid) (fun b => {b with cover_letter := cover})
           db.applications) := by
  refine ⟨?_, ?_, ?_⟩
  · intro h uid
    exact reachable_cold h uid
  · intro uid u resume cover hfu
    unfold submit_application
    rw [hfu]
    dsimp only
    cases resume with
    | none => exact submit_core_resp db uid cover
    | some fname =>
      exact submit_core_resp (updResume uid (toString u.id ++ "_" ++ fname) db) uid cover
  · intro uid u resume cover a hfu hex
    unfold submit_application
    rw [hfu]
    dsimp only
    cases resume with
    | none => exact submit_core_update db uid cover a hex
    | some fname =>
      exact submit_core_update (updResume uid (toString u.id ++ "_" ++ fname) db)
        uid cover a hex

/-- Witness for C9 on a concrete reachable state with an existing cold
application: the count stays at one, the response is the success payload,
and resubmission updates in place. -/
theorem C9_witness :
    ((runAll [Request.signup "s@x.com" "pw" "Student" (some "Stu"),
        Request.submitApplication 1 none (some "first")]).applications.countP
          (isCold 1) ≤ 1) ∧
    ((submit_application (runAll [Request.signup "s@x.com" "pw" "Student" (some "Stu"),
        Request.submitApplication 1 none (some "first")]) 1 none (some "second")).2 =
      Response.jsonMsg "success" "Application Sent Successfully!") ∧
    ((submit_application (runAll [Request.signup "s@x.com" "pw" "Student" (some "Stu"),
        Request.submitApplication 1 none (some "first")]) 1 none (some "second")).1.applications =
      updateFirst (isCold 1) (fun b => {b with cover_letter := some "second"})
        (runAll [Request.signup "s@x.com" "pw" "Student" (some "Stu"),
          Request.submitApplication 1 none (some "first")]).applications) :=
  ⟨(C9_single_cold_application _).1
     (Reachable.step _ (Reachable.step _ Reachable.init)) 1,
   (C9_single_cold_application _).2.1 1
     ⟨1, "s@x.com", "pw", "Student", some "Stu", none, none, none, none, none, none⟩
     none (some "second") (by decide),
   (C9_single_cold_application _).2.2 1
     ⟨1, "s@x.com", "pw", "Student", some "Stu", none, none, none, none, none, none⟩
     none (some "second") ⟨1, 1, none, some "first", "Pending"⟩
     (by decide) (by decide)⟩

/-- C7: no route handler deletes a persisted record: across every request,
the id column of each of the three tables (users, internships,
applications) is only ever extended on the right, so every pre-existing
User, Internship and Application still exists with the same identity;
records are only created or field-updated, never removed. -/
theorem C7_no_record_deletion (db : DB) (req : Request) :
    idsExtend db (handle db req).1 :=
  handle_ids db req

end RAO
